import Mathlib

/-!
Verification development for the physics core of the `silly-goose`
repository (`src/physics.rs`, constants from `src/main.rs`).

Two shallow embeddings are used:

* An exact-arithmetic model: `f32` scalars are idealized as rationals
  (`ℚ`), with `ratSqrt` playing the role of `f32::sqrt`.  `ratSqrt` is
  exact on squares of rationals (`ratSqrt_sq`) and is some unspecified
  rational elsewhere; every concrete input evaluated below is chosen so
  that each square root taken along the way is exact, and the general
  theorems do not depend on the values `ratSqrt` takes elsewhere.
  Division by zero follows the Lean convention `q / 0 = 0` and no
  theorem below depends on that value either.

* A floating-point-flavoured model (`F`, `Vec3F`, ...) that tracks the
  IEEE-754 special values (infinities and NaN) through the exact same
  sequence of operations the source performs, used for the claims about
  NaN production on degenerate (zero-distance) inputs.  `F.sqrt`,
  `F.div`, `F.mul` implement the IEEE special-value rules relevant
  here: `1/0 = ∞`, `0 * ∞ = NaN`, `NaN` propagates, and every ordered
  comparison involving `NaN` is false.
-/

/-- Integer square root on `ℕ`-scaled rationals: exact on squares of
rationals (see `ratSqrt_sq`), unspecified elsewhere; stands in for
`f32::sqrt`, which the source only relies on at exactly-representable
points in the claims below. -/
def ratSqrt (q : ℚ) : ℚ := (Nat.sqrt q.num.natAbs : ℚ) / (Nat.sqrt q.den : ℚ)

/-- 3-component vector over the exact scalars, embedding `glam::Vec3`. -/
@[ext]
structure Vec3 where
  x : ℚ
  y : ℚ
  z : ℚ
deriving DecidableEq

def Vec3.add (a b : Vec3) : Vec3 := ⟨a.x + b.x, a.y + b.y, a.z + b.z⟩

def Vec3.sub (a b : Vec3) : Vec3 := ⟨a.x - b.x, a.y - b.y, a.z - b.z⟩

def Vec3.neg (a : Vec3) : Vec3 := ⟨-a.x, -a.y, -a.z⟩

/-- `v * k` for a scalar `k` (glam's `Vec3 * f32` / `f32 * Vec3`). -/
def Vec3.mulScalar (a : Vec3) (k : ℚ) : Vec3 := ⟨a.x * k, a.y * k, a.z * k⟩

/-- `v / k` for a scalar `k` (glam's `Vec3 / f32`). -/
def Vec3.divScalar (a : Vec3) (k : ℚ) : Vec3 := ⟨a.x / k, a.y / k, a.z / k⟩

def Vec3.dot (a b : Vec3) : ℚ := a.x * b.x + a.y * b.y + a.z * b.z

/-- glam `Vec3::length`: `sqrt (self.dot self)`. -/
def Vec3.length (v : Vec3) : ℚ := ratSqrt (v.dot v)

/-- glam `Vec3::distance`: `(self - rhs).length()`. -/
def Vec3.dist (a b : Vec3) : ℚ := (a.sub b).length

/-- glam `Vec3::normalize`: `self * (1 / self.length())`. -/
def Vec3.normalize (v : Vec3) : Vec3 := v.mulScalar (1 / v.length)

/-- `BORDER_RADIUS` from `main.rs` (0.85). -/
def BORDER_RADIUS : ℚ := 17/20

/-- `BORDER_CENTER` from `main.rs` (the origin). -/
def BORDER_CENTER : Vec3 := ⟨0, 0, 0⟩

/-- `DT` from `main.rs` (1e-3). -/
def DT : ℚ := 1/1000

/-- `PhysicsBody` from `physics.rs`. -/
@[ext]
structure PhysicsBody where
  pos : Vec3
  radius : ℚ
  velocity : Vec3
  mass : ℚ
deriving DecidableEq

/-- `PhysicsBody::new`. -/
def PhysicsBody.new (pos : Vec3) (radius : ℚ) : PhysicsBody :=
  { pos := pos, radius := radius, velocity := ⟨0, 0, 0⟩, mass := 1 }

/-- `PhysicsBody::keep_within_border`, as a pure state transformer. -/
def keep_within_border (b : PhysicsBody) : PhysicsBody :=
  let distance_from_center := b.pos.dist BORDER_CENTER
  if distance_from_center + b.radius > BORDER_RADIUS then
    let dir := (b.pos.sub BORDER_CENTER).normalize
    let pos1 := BORDER_CENTER.add (dir.mulScalar (BORDER_RADIUS - b.radius))
    let normal := dir.neg
    let vel_along_normal := b.velocity.dot normal
    let vel1 := b.velocity.sub (normal.mulScalar (2 * vel_along_normal))
    { b with pos := pos1, velocity := vel1.mulScalar (19/20) }
  else b

/-- `PhysicsBody::collide_with`, as a pure function returning the
updated `(self, other)` pair. -/
def collide_with (self other : PhysicsBody) : PhysicsBody × PhysicsBody :=
  let distance := self.pos.dist other.pos
  if distance < self.radius + other.radius then
    let normal := (other.pos.sub self.pos).normalize
    let relative_velocity := other.velocity.sub self.velocity
    let velocity_along_normal := relative_velocity.dot normal
    if velocity_along_normal > 0 then (self, other)
    else
      let restitution : ℚ := 19/20
      let impulse_scalar := (-(1 + restitution) * velocity_along_normal) /
        (1 / self.mass + 1 / other.mass)
      let impulse := normal.mulScalar impulse_scalar
      let self1 := { self with velocity := self.velocity.sub (impulse.divScalar self.mass) }
      let other1 := { other with velocity := other.velocity.add (impulse.divScalar other.mass) }
      let overlap := (self.radius + other.radius) - distance
      let separation_vector := normal.mulScalar (overlap * (1/2))
      ({ self1 with pos := self1.pos.sub separation_vector },
       { other1 with pos := other1.pos.add separation_vector })
  else (self, other)

/-- 4-component color vector (`glam::Vec4`). -/
@[ext]
structure Vec4 where
  x : ℚ
  y : ℚ
  z : ℚ
  w : ℚ
deriving DecidableEq

/-- `Vertex` from `physics.rs`. -/
@[ext]
structure Vertex where
  position : Vec3
  color : Vec4
  normal : Vec3
deriving DecidableEq

/-- `Mesh` from `physics.rs` (the fields touched by the simulation). -/
@[ext]
structure Mesh where
  vertices : List Vertex
  indices : List ℕ
  buffer_offset : ℕ
  center : Vec3
deriving DecidableEq

/-- `Scene` from `physics.rs`. -/
@[ext]
structure Scene where
  physics_bodies : List PhysicsBody
  static_meshes : List Mesh
  dynamic_meshes : List Mesh
  next_static_vertex : ℕ
  next_static_index : ℕ
  next_dynamic_vertex : ℕ
  next_dynamic_index : ℕ
deriving DecidableEq

/-- First integration loop of `Scene::update_physics`:
`b.velocity += force * dt / b.mass` with `force = (0, -9.8 * mass, 0)`. -/
def apply_gravity (dt : ℚ) (b : PhysicsBody) : PhysicsBody :=
  let force : Vec3 := ⟨0, -(49/5) * b.mass, 0⟩
  { b with velocity := b.velocity.add ((force.mulScalar dt).divScalar b.mass) }

/-- Second integration loop of `Scene::update_physics`:
`b.pos += b.velocity * dt`. -/
def advance_position (dt : ℚ) (b : PhysicsBody) : PhysicsBody :=
  { b with pos := b.pos.add (b.velocity.mulScalar dt) }

/-- One `collide_with` invocation on the bodies at the index pair `p`,
writing both results back (the `split_at_mut` borrow in the source is
two disjoint mutable references into the same vector). -/
def collideAt (bodies : List PhysicsBody) (p : ℕ × ℕ) : List PhysicsBody :=
  match bodies[p.1]?, bodies[p.2]? with
  | some b1, some b2 =>
      let r := collide_with b1 b2
      (bodies.set p.1 r.1).set p.2 r.2
  | _, _ => bodies

/-- The index pairs on which one relaxation pass of
`Scene::update_physics` invokes `collide_with`, in invocation order:
`for i in 0..n { let (first, rest) = split_at_mut(i); for b1 in first
{ for b2 in rest { b1.collide_with(b2) } } }`, so `first` ranges over
indices `< i` and `rest` over indices `≥ i`. -/
def passPairs (n : ℕ) : List (ℕ × ℕ) :=
  (List.range n).flatMap (fun i =>
    (List.range i).flatMap (fun a =>
      (List.range' i (n - i)).map (fun b => (a, b))))

/-- One relaxation pass: border constraint on every body in store
order, then the pairwise collision loop. -/
def relaxPass (bodies : List PhysicsBody) : List PhysicsBody :=
  let bordered := bodies.map keep_within_border
  (passPairs bordered.length).foldl collideAt bordered

/-- `SOLVER_ITERATIONS` from `physics.rs`. -/
def SOLVER_ITERATIONS : ℕ := 3

def runPasses : ℕ → List PhysicsBody → List PhysicsBody
  | 0, bs => bs
  | k+1, bs => runPasses k (relaxPass bs)

/-- `Scene::update_physics`. -/
def update_physics (s : Scene) (dt : ℚ) : Scene :=
  let bodies1 := s.physics_bodies.map (apply_gravity dt)
  let bodies2 := bodies1.map (advance_position dt)
  { s with physics_bodies := runPasses SOLVER_ITERATIONS bodies2 }

/-- Per-mesh body of the loop in `Scene::update_dynamic_vertices`. -/
def updateMeshFor (m : Mesh) (b : PhysicsBody) : Mesh :=
  let offset := b.pos.sub m.center
  { m with
    vertices := m.vertices.map (fun v => { v with position := v.position.add offset }),
    center := b.pos }

/-- `Scene::update_dynamic_vertices`: `zip` pairs meshes with bodies in
order; meshes beyond the body count are left untouched. -/
def update_dynamic_vertices (s : Scene) : Scene :=
  { s with dynamic_meshes :=
      (List.zipWith updateMeshFor s.dynamic_meshes s.physics_bodies) ++
        s.dynamic_meshes.drop s.physics_bodies.length }

/-- One frame of simulation as driven by `main.rs`:
`update_physics(DT)` followed by `update_dynamic_vertices()`. -/
def step (s : Scene) (dt : ℚ) : Scene :=
  update_dynamic_vertices (update_physics s dt)

def runSteps (s : Scene) (dts : List ℚ) : Scene :=
  dts.foldl step s

/-- Floating-point-flavoured scalar: an exact finite value, the two
infinities, or NaN.  Models the `f32` special-value behaviour the
source relies on (finite arithmetic idealized as exact). -/
inductive F where
  | fin (q : ℚ)
  | inf
  | ninf
  | nan
deriving DecidableEq

def F.neg : F → F
  | fin q => fin (-q)
  | inf => ninf
  | ninf => inf
  | nan => nan

def F.add : F → F → F
  | fin a, fin b => fin (a + b)
  | fin _, inf => inf
  | fin _, ninf => ninf
  | inf, fin _ => inf
  | ninf, fin _ => ninf
  | inf, inf => inf
  | ninf, ninf => ninf
  | inf, ninf => nan
  | ninf, inf => nan
  | nan, _ => nan
  | _, nan => nan

def F.sub (a b : F) : F := a.add b.neg

def F.mul : F → F → F
  | fin a, fin b => fin (a * b)
  | fin a, inf => if a = 0 then nan else if 0 < a then inf else ninf
  | fin a, ninf => if a = 0 then nan else if 0 < a then ninf else inf
  | inf, fin b => if b = 0 then nan else if 0 < b then inf else ninf
  | ninf, fin b => if b = 0 then nan else if 0 < b then ninf else inf
  | inf, inf => inf
  | ninf, ninf => inf
  | inf, ninf => ninf
  | ninf, inf => ninf
  | nan, _ => nan
  | _, nan => nan

def F.div : F → F → F
  | fin a, fin b =>
      if b = 0 then (if a = 0 then nan else if 0 < a then inf else ninf)
      else fin (a / b)
  | fin _, inf => fin 0
  | fin _, ninf => fin 0
  | inf, fin b => if 0 ≤ b then inf else ninf
  | ninf, fin b => if 0 ≤ b then ninf else inf
  | inf, inf => nan
  | inf, ninf => nan
  | ninf, inf => nan
  | ninf, ninf => nan
  | nan, _ => nan
  | _, nan => nan

def F.sqrt : F → F
  | fin q => if q < 0 then nan else fin (ratSqrt q)
  | inf => inf
  | ninf => nan
  | nan => nan

/-- Strict `<` comparison; any comparison involving NaN is false. -/
def F.blt : F → F → Bool
  | fin x, fin y => if x < y then true else false
  | fin _, inf => true
  | fin _, ninf => false
  | inf, _ => false
  | ninf, fin _ => true
  | ninf, inf => true
  | ninf, ninf => false
  | nan, _ => false
  | _, nan => false

/-- `glam::Vec3` in the floating-point-flavoured model. -/
@[ext]
structure Vec3F where
  x : F
  y : F
  z : F
deriving DecidableEq

def Vec3F.add (a b : Vec3F) : Vec3F := ⟨a.x.add b.x, a.y.add b.y, a.z.add b.z⟩

def Vec3F.sub (a b : Vec3F) : Vec3F := ⟨a.x.sub b.x, a.y.sub b.y, a.z.sub b.z⟩

def Vec3F.neg (a : Vec3F) : Vec3F := ⟨a.x.neg, a.y.neg, a.z.neg⟩

def Vec3F.mulScalar (a : Vec3F) (k : F) : Vec3F := ⟨a.x.mul k, a.y.mul k, a.z.mul k⟩

def Vec3F.divScalar (a : Vec3F) (k : F) : Vec3F := ⟨a.x.div k, a.y.div k, a.z.div k⟩

def Vec3F.dot (a b : Vec3F) : F := ((a.x.mul b.x).add (a.y.mul b.y)).add (a.z.mul b.z)

def Vec3F.length (v : Vec3F) : F := (v.dot v).sqrt

/-- glam `length_recip`: `1.0 / length` (this is where a zero vector
turns into an infinite reciprocal). -/
def Vec3F.lengthRecip (v : Vec3F) : F := (F.fin 1).div v.length

/-- glam `normalize`: `self * self.length_recip()` (`0 * ∞ = NaN` on a
zero vector). -/
def Vec3F.normalize (v : Vec3F) : Vec3F := v.mulScalar v.lengthRecip

def Vec3F.dist (a b : Vec3F) : F := (a.sub b).length

def BORDER_RADIUS_F : F := F.fin (17/20)

def BORDER_CENTER_F : Vec3F := ⟨F.fin 0, F.fin 0, F.fin 0⟩

/-- `PhysicsBody` in the floating-point-flavoured model. -/
@[ext]
structure PhysicsBodyF where
  pos : Vec3F
  radius : F
  velocity : Vec3F
  mass : F
deriving DecidableEq

/-- `PhysicsBody::keep_within_border` in the floating-point-flavoured
model (`a > b` is `b < a`, false on NaN). -/
def keep_within_borderF (b : PhysicsBodyF) : PhysicsBodyF :=
  let distance_from_center := b.pos.dist BORDER_CENTER_F
  if F.blt BORDER_RADIUS_F (distance_from_center.add b.radius) then
    let dir := (b.pos.sub BORDER_CENTER_F).normalize
    let pos1 := BORDER_CENTER_F.add (dir.mulScalar (BORDER_RADIUS_F.sub b.radius))
    let normal := dir.neg
    let vel_along_normal := b.velocity.dot normal
    let vel1 := b.velocity.sub (normal.mulScalar ((F.fin 2).mul vel_along_normal))
    { b with pos := pos1, velocity := vel1.mulScalar (F.fin (19/20)) }
  else b

/-- `PhysicsBody::collide_with` in the floating-point-flavoured model.
The separating-contact guard `velocity_along_normal > 0.0` is false
when `velocity_along_normal` is NaN, so a NaN normal flows on into the
impulse and the positional correction. -/
def collide_withF (self other : PhysicsBodyF) : PhysicsBodyF × PhysicsBodyF :=
  let distance := self.pos.dist other.pos
  if F.blt distance (self.radius.add other.radius) then
    let normal := (other.pos.sub self.pos).normalize
    let relative_velocity := other.velocity.sub self.velocity
    let velocity_along_normal := relative_velocity.dot normal
    if F.blt (F.fin 0) velocity_along_normal then (self, other)
    else
      let restitution : F := F.fin (19/20)
      let impulse_scalar₀ := (((F.fin 1).add restitution).neg).mul velocity_along_normal
      let impulse_scalar := impulse_scalar₀.div
        (((F.fin 1).div self.mass).add ((F.fin 1).div other.mass))
      let impulse := normal.mulScalar impulse_scalar
      let self1 := { self with velocity := self.velocity.sub (impulse.divScalar self.mass) }
      let other1 := { other with velocity := other.velocity.add (impulse.divScalar other.mass) }
      let overlap := (self.radius.add other.radius).sub distance
      let separation_vector := normal.mulScalar (overlap.mul (F.fin (1/2)))
      ({ self1 with pos := self1.pos.sub separation_vector },
       { other1 with pos := other1.pos.add separation_vector })
  else (self, other)

/-- A scene with no bodies and no meshes. -/
def emptyScene : Scene := ⟨[], [], [], 0, 0, 0, 0⟩

/-- The ball `main.rs` adds: `BALL_RADIUS = 0.04` at `BALL_START = (0, 0.75, 0)`. -/
def ballBody : PhysicsBody := PhysicsBody.new ⟨0, 3/4, 0⟩ (1/25)

/-- A body penetrating the lower boundary (|pos| + radius = 0.94 > 0.85). -/
def c5OutBody : PhysicsBody := ⟨⟨0, -9/10, 0⟩, 1/25, ⟨0, -2, 0⟩, 1⟩

/-- Overlapping pair, already separating: still body. -/
def c7BodyA : PhysicsBody := ⟨⟨0, 0, 0⟩, 1/25, ⟨0, 0, 0⟩, 1⟩

/-- Overlapping pair, already separating: receding body. -/
def c7BodyB : PhysicsBody := ⟨⟨7/100, 0, 0⟩, 1/25, ⟨1, 0, 0⟩, 1⟩

/-- Overlapping, approaching, unequal masses (mass 2). -/
def c10BodyA : PhysicsBody := ⟨⟨0, 0, 0⟩, 1/25, ⟨1, 0, 0⟩, 2⟩

/-- Overlapping, approaching, unequal masses (mass 3). -/
def c10BodyB : PhysicsBody := ⟨⟨7/100, 0, 0⟩, 1/25, ⟨-1, 0, 0⟩, 3⟩

/-- Two equal bodies exactly touching (distance = sum of radii),
approaching head-on along the x-axis at speed 1. -/
def c3BodyA : PhysicsBody := ⟨⟨0, 0, 0⟩, 1/25, ⟨1, 0, 0⟩, 1⟩

/-- See `c3BodyA`. -/
def c3BodyB : PhysicsBody := ⟨⟨2/25, 0, 0⟩, 1/25, ⟨-1, 0, 0⟩, 1⟩

/-- Two coincident bodies (radius 0.04, unit mass, both at the
origin, at rest) in the floating-point-flavoured model. -/
def c2Body : PhysicsBodyF :=
  ⟨⟨F.fin 0, F.fin 0, F.fin 0⟩, F.fin (1/25), ⟨F.fin 0, F.fin 0, F.fin 0⟩, F.fin 1⟩

/-- A body whose center sits exactly at the border center but whose
radius (1) exceeds the border radius (0.85). -/
def c8Body : PhysicsBodyF :=
  ⟨BORDER_CENTER_F, F.fin 1, ⟨F.fin 0, F.fin 0, F.fin 0⟩, F.fin 1⟩

/-- Default vertex for out-of-range `getD` access (never hit under the
bounds hypotheses below). -/
def defaultVertex : Vertex := ⟨⟨0, 0, 0⟩, ⟨0, 0, 0, 0⟩, ⟨0, 0, 0⟩⟩

/-- Default mesh for out-of-range `getD` access. -/
def defaultMesh : Mesh := ⟨[], [], 0, ⟨0, 0, 0⟩⟩

/-- Default body for out-of-range `getD` access. -/
def defaultBody : PhysicsBody := PhysicsBody.new ⟨0, 0, 0⟩ 0

/-- Position of vertex `a` of dynamic mesh `k`. -/
def meshVertexPos (s : Scene) (k a : ℕ) : Vec3 :=
  ((s.dynamic_meshes.getD k defaultMesh).vertices.getD a defaultVertex).position

/-- A two-vertex dynamic mesh for the rigidity witness. -/
def c9Mesh : Mesh :=
  ⟨[⟨⟨0, 0, 0⟩, ⟨1, 1, 1, 1⟩, ⟨0, 1, 0⟩⟩, ⟨⟨1/10, 0, 0⟩, ⟨1, 1, 1, 1⟩, ⟨0, 1, 0⟩⟩],
   [0, 1, 0], 0, ⟨0, 0, 0⟩⟩

/-- A one-ball scene with `c9Mesh` as its dynamic mesh. -/
def c9Scene : Scene := ⟨[ballBody], [], [c9Mesh], 0, 0, 0, 0⟩

/-- Three 0.04-radius unit-mass balls stacked on the y-axis near the
bottom of the border, all moving down (all values exactly
representable; every square root taken during the step below is a
square root of a rational square). -/
def c6Body0 : PhysicsBody := ⟨⟨0, -19/25, 0⟩, 1/25, ⟨0, -8/5, 0⟩, 1⟩

/-- See `c6Body0`. -/
def c6Body1 : PhysicsBody := ⟨⟨0, -157/200, 0⟩, 1/25, ⟨0, -6/5, 0⟩, 1⟩

/-- See `c6Body0`. -/
def c6Body2 : PhysicsBody := ⟨⟨0, -161/200, 0⟩, 1/25, ⟨0, -1, 0⟩, 1⟩

/-- The three-ball scene for the containment counterexample. -/
def c6Scene : Scene := ⟨[c6Body0, c6Body1, c6Body2], [], [], 0, 0, 0, 0⟩

theorem ratSqrt_nonneg (q : ℚ) : 0 ≤ ratSqrt q := by
  unfold ratSqrt
  positivity

theorem ratSqrt_mul_self (q : ℚ) (h : 0 ≤ q) : ratSqrt (q * q) = q := by
  rw [ratSqrt, Rat.mul_self_num, Rat.mul_self_den, Int.natAbs_mul, Nat.sqrt_eq, Nat.sqrt_eq]
  have hn : (0:ℤ) ≤ q.num := Rat.num_nonneg.mpr h
  rw [Int.cast_natAbs, abs_of_nonneg (by exact_mod_cast hn)]
  exact Rat.num_div_den q

theorem ratSqrt_sq (q : ℚ) (h : 0 ≤ q) : ratSqrt (q ^ 2) = q := by
  rw [sq]
  exact ratSqrt_mul_self q h

/-- Applying the same impulse vector with opposite signs, each divided
by the receiving body's mass, leaves `m_a * v_a + m_b * v_b` unchanged. -/
theorem opposite_impulse_momentum (va vb imp : Vec3) (ma mb : ℚ)
    (ha : ma ≠ 0) (hb : mb ≠ 0) :
    Vec3.add ((va.sub (imp.divScalar ma)).mulScalar ma) ((vb.add (imp.divScalar mb)).mulScalar mb) =
      Vec3.add (va.mulScalar ma) (vb.mulScalar mb) := by
  ext <;> simp only [Vec3.add, Vec3.sub, Vec3.mulScalar, Vec3.divScalar] <;> field_simp

/-- C4: the integration phase of `update_physics` first adds the
gravitational acceleration `(0, -9.8, 0)` times `dt` to each body's
velocity — independently of the body's mass — and then adds the
just-updated velocity times `dt` to the position (semi-implicit Euler);
`update_physics` is exactly this integration followed by the
relaxation passes. -/
theorem c4_semi_implicit_euler (dt : ℚ) (s : Scene) (b : PhysicsBody) (h : b.mass ≠ 0) :
    (update_physics s dt).physics_bodies =
        runPasses SOLVER_ITERATIONS
          ((s.physics_bodies.map (apply_gravity dt)).map (advance_position dt)) ∧
    advance_position dt (apply_gravity dt b) =
      { b with
          velocity := b.velocity.add (Vec3.mulScalar ⟨0, -(49/5), 0⟩ dt),
          pos := b.pos.add ((b.velocity.add (Vec3.mulScalar ⟨0, -(49/5), 0⟩ dt)).mulScalar dt) } := by
  refine ⟨by simp only [update_physics], ?_⟩
  ext <;> simp only [apply_gravity, advance_position, Vec3.add, Vec3.mulScalar, Vec3.divScalar] <;>
    field_simp <;> ring

/-- Witness for C4 at `dt = 1e-3` on the ball from `main.rs`. -/
theorem c4_semi_implicit_euler_witness :
    ballBody.mass ≠ 0 ∧
    advance_position (1/1000) (apply_gravity (1/1000) ballBody) =
      { ballBody with
          velocity := ballBody.velocity.add (Vec3.mulScalar ⟨0, -(49/5), 0⟩ (1/1000)),
          pos := ballBody.pos.add
            ((ballBody.velocity.add (Vec3.mulScalar ⟨0, -(49/5), 0⟩ (1/1000))).mulScalar
              (1/1000)) } :=
  ⟨by norm_num [ballBody, PhysicsBody.new],
   (c4_semi_implicit_euler (1/1000) emptyScene ballBody
      (by norm_num [ballBody, PhysicsBody.new])).2⟩

/-- C5: a body that has penetrated the boundary (distance from the
border center plus radius exceeds the border radius, distance nonzero)
is repositioned to `border_center + normalize(pos - border_center) *
(border_radius - radius)`, its velocity is mirrored across the tangent
plane (`v - 2 (v·n) n` for the outward normal `n`) and then the whole
velocity is scaled by 0.95; a body fully inside is left unchanged. -/
theorem c5_border_response (b : PhysicsBody) :
    (BORDER_RADIUS < b.pos.dist BORDER_CENTER + b.radius →
      b.pos.dist BORDER_CENTER ≠ 0 →
      keep_within_border b =
        { b with
            pos := BORDER_CENTER.add
              (((b.pos.sub BORDER_CENTER).normalize).mulScalar (BORDER_RADIUS - b.radius)),
            velocity :=
              (b.velocity.sub
                (((b.pos.sub BORDER_CENTER).normalize).mulScalar
                  (2 * (b.velocity.dot ((b.pos.sub BORDER_CENTER).normalize))))).mulScalar
                (19/20) }) ∧
    (b.pos.dist BORDER_CENTER + b.radius ≤ BORDER_RADIUS → keep_within_border b = b) := by
  constructor
  · intro h _
    simp only [keep_within_border, gt_iff_lt, h, if_true]
    ext <;> simp only [Vec3.neg, Vec3.mulScalar, Vec3.sub, Vec3.dot, Vec3.add] <;> ring
  · intro h
    simp only [keep_within_border, gt_iff_lt]
    rw [if_neg (not_lt.mpr h)]

/-- Witness for C5: a penetrating body is snapped to the boundary and
reflected; the `main.rs` ball at its start position is left unchanged. -/
theorem c5_border_response_witness :
    (keep_within_border c5OutBody =
      { c5OutBody with
          pos := BORDER_CENTER.add
            (((c5OutBody.pos.sub BORDER_CENTER).normalize).mulScalar
              (BORDER_RADIUS - c5OutBody.radius)),
          velocity :=
            (c5OutBody.velocity.sub
              (((c5OutBody.pos.sub BORDER_CENTER).normalize).mulScalar
                (2 * (c5OutBody.velocity.dot
                  ((c5OutBody.pos.sub BORDER_CENTER).normalize))))).mulScalar
              (19/20) }) ∧
    keep_within_border ballBody = ballBody :=
  ⟨(c5_border_response c5OutBody).1
      (by norm_num [c5OutBody, Vec3.dist, Vec3.sub, Vec3.length, Vec3.dot, ratSqrt,
        BORDER_CENTER, BORDER_RADIUS])
      (by norm_num [c5OutBody, Vec3.dist, Vec3.sub, Vec3.length, Vec3.dot, ratSqrt,
        BORDER_CENTER]),
   (c5_border_response ballBody).2
      (by norm_num [ballBody, PhysicsBody.new, Vec3.dist, Vec3.sub, Vec3.length, Vec3.dot,
        ratSqrt, BORDER_CENTER, BORDER_RADIUS])⟩

/-- C7: an overlapping pair whose relative velocity along the collision
normal is positive is left entirely unchanged by `collide_with` — no
impulse and no positional correction. -/
theorem c7_separating_noop (a b : PhysicsBody)
    (hover : a.pos.dist b.pos < a.radius + b.radius)
    (hsep : 0 < (b.velocity.sub a.velocity).dot ((b.pos.sub a.pos).normalize)) :
    collide_with a b = (a, b) := by
  simp [collide_with, hover, hsep]

/-- Witness for C7 on a concrete overlapping, separating pair. -/
theorem c7_separating_noop_witness :
    (c7BodyA.pos.dist c7BodyB.pos < c7BodyA.radius + c7BodyB.radius ∧
      0 < (c7BodyB.velocity.sub c7BodyA.velocity).dot
        ((c7BodyB.pos.sub c7BodyA.pos).normalize)) ∧
    collide_with c7BodyA c7BodyB = (c7BodyA, c7BodyB) := by
  have h1 : c7BodyA.pos.dist c7BodyB.pos < c7BodyA.radius + c7BodyB.radius := by
    norm_num [c7BodyA, c7BodyB, Vec3.dist, Vec3.sub, Vec3.length, Vec3.dot, ratSqrt]
  have h2 : 0 < (c7BodyB.velocity.sub c7BodyA.velocity).dot
      ((c7BodyB.pos.sub c7BodyA.pos).normalize) := by
    norm_num [c7BodyA, c7BodyB, Vec3.dist, Vec3.sub, Vec3.length, Vec3.dot, Vec3.normalize,
      Vec3.mulScalar, ratSqrt]
  exact ⟨⟨h1, h2⟩, c7_separating_noop c7BodyA c7BodyB h1 h2⟩

/-- C10: `collide_with` preserves the pair's total linear momentum
`m_a * v_a + m_b * v_b` exactly, for any masses (nonzero), positions
and velocities, because the impulse given to one body is the exact
opposite of the impulse given to the other. -/
theorem c10_momentum_conserved (a b : PhysicsBody) (ha : a.mass ≠ 0) (hb : b.mass ≠ 0) :
    Vec3.add ((collide_with a b).1.velocity.mulScalar a.mass)
        ((collide_with a b).2.velocity.mulScalar b.mass) =
      Vec3.add (a.velocity.mulScalar a.mass) (b.velocity.mulScalar b.mass) := by
  simp only [collide_with]
  split_ifs with h1 h2
  · rfl
  · exact opposite_impulse_momentum a.velocity b.velocity _ a.mass b.mass ha hb
  · rfl

/-- Witness for C10 on an overlapping, approaching pair with unequal
masses 2 and 3. -/
theorem c10_momentum_conserved_witness :
    (c10BodyA.mass ≠ 0 ∧ c10BodyB.mass ≠ 0) ∧
    Vec3.add ((collide_with c10BodyA c10BodyB).1.velocity.mulScalar c10BodyA.mass)
        ((collide_with c10BodyA c10BodyB).2.velocity.mulScalar c10BodyB.mass) =
      Vec3.add (c10BodyA.velocity.mulScalar c10BodyA.mass)
        (c10BodyB.velocity.mulScalar c10BodyB.mass) :=
  ⟨⟨by norm_num [c10BodyA], by norm_num [c10BodyB]⟩,
   c10_momentum_conserved c10BodyA c10BodyB (by norm_num [c10BodyA]) (by norm_num [c10BodyB])⟩


/-- C3 counterexample: for the exactly-touching head-on pair of the
claim (radius 0.04, unit masses, speeds ±1 along x, distance equal to
the sum of the radii) `collide_with` is a no-op — the overlap test is
strict (`distance < r_a + r_b`) — so the velocities are not swapped
and scaled as the claim states. -/
theorem c3_exact_touch_noop :
    collide_with c3BodyA c3BodyB = (c3BodyA, c3BodyB) ∧
    (collide_with c3BodyA c3BodyB).1.velocity ≠ ⟨-(19/20), 0, 0⟩ := by
  have h : collide_with c3BodyA c3BodyB = (c3BodyA, c3BodyB) := by
    norm_num [collide_with, c3BodyA, c3BodyB, Vec3.dist, Vec3.sub, Vec3.length, Vec3.dot,
      ratSqrt]
  refine ⟨h, ?_⟩
  rw [h]
  simp only [c3BodyA, Vec3.mk.injEq]
  norm_num

/-- C3 amended: for the same pair but strictly overlapping (any
centers `xa < xb` on the x-axis with `xb - xa` less than the radius
sum 0.08), a single `collide_with` swaps the sign of both velocities
and scales their magnitude by the restitution 0.95. -/
theorem c3_headon_swap_scale (xa xb : ℚ) (hlt : xa < xb) (hover : xb - xa < 2/25) :
    (collide_with ⟨⟨xa, 0, 0⟩, 1/25, ⟨1, 0, 0⟩, 1⟩ ⟨⟨xb, 0, 0⟩, 1/25, ⟨-1, 0, 0⟩, 1⟩).1.velocity =
        ⟨-(19/20), 0, 0⟩ ∧
    (collide_with ⟨⟨xa, 0, 0⟩, 1/25, ⟨1, 0, 0⟩, 1⟩ ⟨⟨xb, 0, 0⟩, 1/25, ⟨-1, 0, 0⟩, 1⟩).2.velocity =
        ⟨19/20, 0, 0⟩ := by
  have hne : xb - xa ≠ 0 := by linarith
  have hd : (Vec3.mk xa 0 0).dist ⟨xb, 0, 0⟩ = xb - xa := by
    simp only [Vec3.dist, Vec3.sub, Vec3.length, Vec3.dot]
    rw [show (xa - xb) * (xa - xb) + (0 - 0) * (0 - 0) + (0 - 0) * (0 - 0) =
      (xb - xa) * (xb - xa) by ring]
    exact ratSqrt_mul_self (xb - xa) (by linarith)
  have hn : (Vec3.sub ⟨xb, 0, 0⟩ ⟨xa, 0, 0⟩).normalize = ⟨1, 0, 0⟩ := by
    simp only [Vec3.normalize, Vec3.sub, Vec3.length, Vec3.dot, Vec3.mulScalar]
    rw [show (xb - xa) * (xb - xa) + (0 - 0) * (0 - 0) + (0 - 0) * (0 - 0) =
      (xb - xa) * (xb - xa) by ring]
    rw [ratSqrt_mul_self (xb - xa) (by linarith)]
    ext <;> field_simp
  simp only [collide_with, hd, hn]
  norm_num [hover, Vec3.dot, Vec3.sub, Vec3.mulScalar, Vec3.divScalar, Vec3.add]

/-- Witness for the amended C3 at centers 0 and 0.07. -/
theorem c3_headon_swap_scale_witness :
    ((0:ℚ) < 7/100 ∧ (7/100 : ℚ) - 0 < 2/25) ∧
    (collide_with ⟨⟨0, 0, 0⟩, 1/25, ⟨1, 0, 0⟩, 1⟩
        ⟨⟨7/100, 0, 0⟩, 1/25, ⟨-1, 0, 0⟩, 1⟩).1.velocity = ⟨-(19/20), 0, 0⟩ ∧
    (collide_with ⟨⟨0, 0, 0⟩, 1/25, ⟨1, 0, 0⟩, 1⟩
        ⟨⟨7/100, 0, 0⟩, 1/25, ⟨-1, 0, 0⟩, 1⟩).2.velocity = ⟨19/20, 0, 0⟩ :=
  ⟨⟨by norm_num, by norm_num⟩,
   (c3_headon_swap_scale 0 (7/100) (by norm_num) (by norm_num)).1,
   (c3_headon_swap_scale 0 (7/100) (by norm_num) (by norm_num)).2⟩


/-- C2 (code bug evidence): on a pair of exactly coincident bodies
`collide_with` does not skip the normal-dependent work — it normalizes
the zero separation vector (`0 * (1/0) = 0 * ∞ = NaN`), the
separating-contact guard compares against NaN (false), and the NaN
normal flows into both bodies' velocities and positions. -/
theorem c2_coincident_pair_nan :
    (collide_withF c2Body c2Body).1.pos = ⟨F.nan, F.nan, F.nan⟩ ∧
    (collide_withF c2Body c2Body).1.velocity = ⟨F.nan, F.nan, F.nan⟩ ∧
    (collide_withF c2Body c2Body).2.pos = ⟨F.nan, F.nan, F.nan⟩ ∧
    (collide_withF c2Body c2Body).2.velocity = ⟨F.nan, F.nan, F.nan⟩ := by
  norm_num [collide_withF, c2Body, Vec3F.dist, Vec3F.sub, Vec3F.add, Vec3F.length,
    Vec3F.dot, Vec3F.normalize, Vec3F.lengthRecip, Vec3F.mulScalar, Vec3F.divScalar,
    F.add, F.sub, F.neg, F.mul, F.div, F.sqrt, F.blt, ratSqrt]

/-- C8 counterexample: a body centered exactly at the border center
whose radius exceeds the border radius enters the violation branch
with distance 0, so `keep_within_border` normalizes a zero vector and
both position and velocity become NaN — the claim's "no NaN, position
and velocity unchanged" does not hold for every body at the center. -/
theorem c8_center_nan :
    (keep_within_borderF c8Body).pos = ⟨F.nan, F.nan, F.nan⟩ ∧
    (keep_within_borderF c8Body).velocity = ⟨F.nan, F.nan, F.nan⟩ := by
  norm_num [keep_within_borderF, c8Body, BORDER_CENTER_F, BORDER_RADIUS_F, Vec3F.dist,
    Vec3F.sub, Vec3F.add, Vec3F.length, Vec3F.dot, Vec3F.normalize, Vec3F.lengthRecip,
    Vec3F.mulScalar, Vec3F.neg, F.add, F.sub, F.neg, F.mul, F.div, F.sqrt, F.blt, ratSqrt]

/-- C8 amended: for a body at the border center whose radius is at
most the border radius (every body that fits in the border, e.g. the
0.04-radius balls of `main.rs`), the violation test `0 + radius >
border_radius` is false, so `keep_within_border` changes nothing: no
NaN, position stays at the center, velocity is untouched. -/
theorem c8_center_inside_noop (r : ℚ) (v : Vec3F) (m : F) (hr : r ≤ 17/20) :
    keep_within_borderF ⟨BORDER_CENTER_F, F.fin r, v, m⟩ =
      ⟨BORDER_CENTER_F, F.fin r, v, m⟩ := by
  have hc : F.blt BORDER_RADIUS_F
      ((Vec3F.dist BORDER_CENTER_F BORDER_CENTER_F).add (F.fin r)) = false := by
    norm_num [BORDER_CENTER_F, BORDER_RADIUS_F, Vec3F.dist, Vec3F.sub, Vec3F.length,
      Vec3F.dot, F.add, F.sub, F.neg, F.mul, F.sqrt, F.blt, ratSqrt]
    exact hr
  simp only [keep_within_borderF, hc, Bool.false_eq_true, if_false]

/-- Witness for the amended C8 with the 0.04 ball radius. -/
theorem c8_center_inside_noop_witness :
    ((1/25 : ℚ) ≤ 17/20) ∧
    keep_within_borderF ⟨BORDER_CENTER_F, F.fin (1/25), ⟨F.fin 0, F.fin 0, F.fin 0⟩, F.fin 1⟩ =
      ⟨BORDER_CENTER_F, F.fin (1/25), ⟨F.fin 0, F.fin 0, F.fin 0⟩, F.fin 1⟩ :=
  ⟨by norm_num,
   c8_center_inside_noop (1/25) ⟨F.fin 0, F.fin 0, F.fin 0⟩ (F.fin 1) (by norm_num)⟩


/-- Count of `(i0, j0)` in one inner loop of `passPairs`: the block
for outer split index `i` pairs the fixed lower index `a` with every
upper index in `[s, s + len)`. -/
theorem count_pair_map (i0 j0 a s len : ℕ) :
    List.count (i0, j0) ((List.range' s len).map (fun b => (a, b))) =
      if a = i0 ∧ s ≤ j0 ∧ j0 < s + len then 1 else 0 := by
  induction len generalizing s with
  | zero =>
      simp only [List.range'_zero, List.map_nil, List.count_nil]
      split_ifs <;> omega
  | succ k ih =>
      rw [List.range'_succ, List.map_cons, List.count_cons, ih (s+1)]
      simp only [beq_iff_eq, Prod.mk.injEq]
      split_ifs <;> omega

/-- Summing an `a = i0`-indicator over `a < i`. -/
theorem sum_map_single_range (c i0 : ℕ) (P : Prop) [Decidable P] (i : ℕ) :
    ((List.range i).map (fun a => if a = i0 ∧ P then c else 0)).sum =
      if i0 < i ∧ P then c else 0 := by
  induction i with
  | zero => simp
  | succ k ih =>
      rw [List.range_succ, List.map_append, List.sum_append, ih]
      by_cases hP : P
      · simp only [hP, and_true]
        by_cases hk : k = i0
        · subst hk
          simp
        · simp [hk]
          split_ifs <;> omega
      · simp [hP]

/-- Summing the `i0 < i ≤ j0` window indicator over `i < n`. -/
theorem sum_map_window (i0 j0 n : ℕ) :
    ((List.range n).map (fun i => if i0 < i ∧ i ≤ j0 then 1 else 0)).sum =
      min n (j0 + 1) - min n (i0 + 1) := by
  induction n with
  | zero => simp
  | succ k ih =>
      rw [List.range_succ, List.map_append, List.sum_append, ih]
      simp only [List.map_cons, List.map_nil, List.sum_cons, List.sum_nil]
      split_ifs with h <;> omega

/-- C1 amended: in each relaxation pass the pair of body indices
`(i, j)` with `i < j < n` is handed to `collide_with` exactly `j - i`
times — once for every split index strictly between `i` and `j`
(inclusive of `j`) — not exactly once: the source splits the store at
`i` instead of `i + 1`, so `first` contains every index below the
split, not just the one body. -/
theorem c1_pair_visit_count (n i j : ℕ) (hij : i < j) (hj : j < n) :
    (passPairs n).count (i, j) = j - i := by
  unfold passPairs
  rw [List.count_flatMap]
  have h1 : ∀ i2 ∈ List.range n,
      (List.count (i, j) ∘ fun i1 =>
        (List.range i1).flatMap fun a => (List.range' i1 (n - i1)).map fun b => (a, b)) i2 =
      if i < i2 ∧ i2 ≤ j then 1 else 0 := by
    intro i2 hi2
    rw [List.mem_range] at hi2
    simp only [Function.comp_apply]
    rw [List.count_flatMap]
    have h2 : ∀ a ∈ List.range i2,
        (List.count (i, j) ∘ fun a => (List.range' i2 (n - i2)).map fun b => (a, b)) a =
        if a = i ∧ i2 ≤ j ∧ j < i2 + (n - i2) then 1 else 0 := by
      intro a _
      simp only [Function.comp_apply]
      exact count_pair_map i j a i2 (n - i2)
    rw [List.map_congr_left h2]
    rw [sum_map_single_range]
    have h3 : i2 + (n - i2) = n := by omega
    rw [h3]
    split_ifs <;> omega
  rw [List.map_congr_left h1]
  rw [sum_map_window]
  omega

/-- C1 counterexample: with three bodies, the pair `(0, 2)` is handed
to `collide_with` twice in a single pass (at split indices 1 and 2),
refuting "exactly once per pass". -/
theorem c1_pair_visited_twice :
    (passPairs 3).count (0, 2) = 2 ∧ (passPairs 3).count (0, 2) ≠ 1 := by
  decide

/-- Witness for the amended C1: with four bodies, pair `(1, 3)` is
visited `3 - 1 = 2` times per pass. -/
theorem c1_pair_visit_count_witness :
    (1 < 3 ∧ 3 < 4) ∧ (passPairs 4).count (1, 3) = 3 - 1 :=
  ⟨by decide, c1_pair_visit_count 4 1 3 (by decide) (by decide)⟩

theorem updateMeshFor_vertices_length (m : Mesh) (b : PhysicsBody) :
    (updateMeshFor m b).vertices.length = m.vertices.length := by
  simp [updateMeshFor]

theorem updateMeshFor_vertexPos (m : Mesh) (b : PhysicsBody) (a : ℕ)
    (ha : a < m.vertices.length) :
    ((updateMeshFor m b).vertices.getD a defaultVertex).position =
      ((m.vertices.getD a defaultVertex).position).add (b.pos.sub m.center) := by
  have ha2 : a < (updateMeshFor m b).vertices.length := by
    rwa [updateMeshFor_vertices_length]
  rw [List.getD_eq_getElem _ _ ha2, List.getD_eq_getElem _ _ ha]
  simp [updateMeshFor]

theorem udv_meshes_getD (ms : List Mesh) (bs : List PhysicsBody) (k : ℕ)
    (hk : k < ms.length) :
    (List.zipWith updateMeshFor ms bs ++ ms.drop bs.length).getD k defaultMesh =
      if k < bs.length then
        updateMeshFor (ms.getD k defaultMesh) (bs.getD k defaultBody)
      else ms.getD k defaultMesh := by
  induction ms generalizing bs k with
  | nil => simp at hk
  | cons m ms ih =>
      cases bs with
      | nil => simp
      | cons b bs =>
          cases k with
          | zero => simp
          | succ k2 =>
              simp only [List.zipWith_cons_cons, List.drop_succ_cons, List.cons_append,
                List.getD_cons_succ, List.length_cons, Nat.add_lt_add_iff_right]
              exact ih bs k2 (by simpa using hk)

theorem update_physics_dynamic_meshes (s : Scene) (dt : ℚ) :
    (update_physics s dt).dynamic_meshes = s.dynamic_meshes := by
  simp only [update_physics]

theorem step_meshes_length (s : Scene) (dt : ℚ) :
    (step s dt).dynamic_meshes.length = s.dynamic_meshes.length := by
  simp only [step, update_dynamic_vertices, update_physics_dynamic_meshes,
    List.length_append, List.length_zipWith, List.length_drop, inf_eq_min]
  omega

theorem step_mesh_getD (s : Scene) (dt : ℚ) (k : ℕ) (hk : k < s.dynamic_meshes.length) :
    (step s dt).dynamic_meshes.getD k defaultMesh =
      if k < (update_physics s dt).physics_bodies.length then
        updateMeshFor (s.dynamic_meshes.getD k defaultMesh)
          ((update_physics s dt).physics_bodies.getD k defaultBody)
      else s.dynamic_meshes.getD k defaultMesh := by
  simp only [step, update_dynamic_vertices, update_physics_dynamic_meshes]
  exact udv_meshes_getD s.dynamic_meshes (update_physics s dt).physics_bodies k hk

theorem step_vertices_length (s : Scene) (dt : ℚ) (k : ℕ)
    (hk : k < s.dynamic_meshes.length) :
    ((step s dt).dynamic_meshes.getD k defaultMesh).vertices.length =
      (s.dynamic_meshes.getD k defaultMesh).vertices.length := by
  rw [step_mesh_getD s dt k hk]
  split_ifs
  · rw [updateMeshFor_vertices_length]
  · rfl

theorem step_vertex_diff (s : Scene) (dt : ℚ) (k a b : ℕ)
    (hk : k < s.dynamic_meshes.length)
    (ha : a < (s.dynamic_meshes.getD k defaultMesh).vertices.length)
    (hb : b < (s.dynamic_meshes.getD k defaultMesh).vertices.length) :
    Vec3.sub (meshVertexPos (step s dt) k a) (meshVertexPos (step s dt) k b) =
      Vec3.sub (meshVertexPos s k a) (meshVertexPos s k b) := by
  simp only [meshVertexPos, step_mesh_getD s dt k hk]
  split_ifs
  · rw [updateMeshFor_vertexPos _ _ a ha, updateMeshFor_vertexPos _ _ b hb]
    ext <;> simp only [Vec3.sub, Vec3.add] <;> ring
  · rfl

/-- C9: Geometry Sync translates each dynamic mesh rigidly (every
vertex moves by the one delta `body.pos - mesh.center`), so the
distance between any two vertices of a dynamic mesh is unchanged by
any sequence of `step` calls (`update_physics` followed by
`update_dynamic_vertices`, as driven by `main.rs`), whatever `dt` each
step uses. -/
theorem c9_mesh_rigidity (dts : List ℚ) (s : Scene) (k a b : ℕ)
    (hk : k < s.dynamic_meshes.length)
    (ha : a < (s.dynamic_meshes.getD k defaultMesh).vertices.length)
    (hb : b < (s.dynamic_meshes.getD k defaultMesh).vertices.length) :
    Vec3.dist (meshVertexPos (runSteps s dts) k a) (meshVertexPos (runSteps s dts) k b) =
      Vec3.dist (meshVertexPos s k a) (meshVertexPos s k b) := by
  induction dts generalizing s with
  | nil => rfl
  | cons dt rest ih =>
      have hk2 : k < (step s dt).dynamic_meshes.length := by
        rw [step_meshes_length]; exact hk
      have ha2 : a < ((step s dt).dynamic_meshes.getD k defaultMesh).vertices.length := by
        rw [step_vertices_length s dt k hk]; exact ha
      have hb2 : b < ((step s dt).dynamic_meshes.getD k defaultMesh).vertices.length := by
        rw [step_vertices_length s dt k hk]; exact hb
      have hrun : runSteps s (dt :: rest) = runSteps (step s dt) rest := by
        simp [runSteps]
      rw [hrun, ih (step s dt) hk2 ha2 hb2]
      simp only [Vec3.dist, Vec3.length]
      rw [step_vertex_diff s dt k a b hk ha hb]

/-- Witness for C9: a one-ball scene whose mesh has two vertices 0.1
apart, run for two steps. -/
theorem c9_mesh_rigidity_witness :
    (0 < c9Scene.dynamic_meshes.length ∧
      0 < (c9Scene.dynamic_meshes.getD 0 defaultMesh).vertices.length ∧
      1 < (c9Scene.dynamic_meshes.getD 0 defaultMesh).vertices.length) ∧
    Vec3.dist (meshVertexPos (runSteps c9Scene [1/1000, 1/1000]) 0 0)
        (meshVertexPos (runSteps c9Scene [1/1000, 1/1000]) 0 1) =
      Vec3.dist (meshVertexPos c9Scene 0 0) (meshVertexPos c9Scene 0 1) :=
  ⟨⟨by decide, by decide, by decide⟩,
   c9_mesh_rigidity [1/1000, 1/1000] c9Scene 0 0 1 (by decide) (by decide) (by decide)⟩

/-- C6 counterexample: after a single `update_physics` step at
`dt = 1e-3` on `c6Scene`, body 1 ends at `y = -0.839985` with radius
0.04, violating boundary containment by about `0.03` — three orders of
magnitude beyond any `f32` tolerance at this scale: the final pass's
pairwise positional corrections run after the last border-constraint
phase and push it back out. -/
theorem c6_containment_violated :
    BORDER_RADIUS + 1/40 <
      ((update_physics c6Scene (1/1000)).physics_bodies.getD 1 defaultBody).pos.dist
          BORDER_CENTER +
        ((update_physics c6Scene (1/1000)).physics_bodies.getD 1 defaultBody).radius := by
  have hp : passPairs 3 = [(0,1), (0,2), (0,2), (1,2)] := by decide
  have h : (update_physics c6Scene (1/1000)).physics_bodies =
      [⟨⟨0, -14199397/20000000, 0⟩, 1/25, ⟨0, 55591539/40000000, 0⟩, 1⟩,
       ⟨⟨0, -33599397/40000000, 0⟩, 1/25, ⟨0, -1443729203/1600000000, 0⟩, 1⟩,
       ⟨⟨0, -30399397/40000000, 0⟩, 1/25, ⟨0, 1660519563/1600000000, 0⟩, 1⟩] := by
    norm_num [update_physics, c6Scene, c6Body0, c6Body1, c6Body2, apply_gravity,
      advance_position, SOLVER_ITERATIONS, runPasses, relaxPass, hp, collideAt,
      collide_with, keep_within_border, BORDER_RADIUS, BORDER_CENTER,
      Vec3.dist, Vec3.length, Vec3.dot, Vec3.sub, Vec3.add, Vec3.neg,
      Vec3.normalize, Vec3.mulScalar, Vec3.divScalar, ratSqrt]
  rw [h]
  norm_num [List.getD_cons_succ, List.getD_cons_zero, Vec3.dist, Vec3.sub, Vec3.length,
    Vec3.dot, ratSqrt, BORDER_CENTER, BORDER_RADIUS]

/-- C6 amended: containment does hold immediately after the border
constraint is applied to a body — for every body whose radius fits the
border and whose center distance is exactly representable
(`ratSqrt` exact), `keep_within_border` leaves it with
`distance + radius ≤ border_radius`, with equality when it was
violating.  The bound can then be broken again, within the same step,
by the pairwise positional corrections (see the counterexample). -/
theorem c6_border_phase_containment (b : PhysicsBody)
    (hr : b.radius ≤ BORDER_RADIUS)
    (hex : ratSqrt ((b.pos.sub BORDER_CENTER).dot (b.pos.sub BORDER_CENTER)) *
        ratSqrt ((b.pos.sub BORDER_CENTER).dot (b.pos.sub BORDER_CENTER)) =
        (b.pos.sub BORDER_CENTER).dot (b.pos.sub BORDER_CENTER)) :
    (keep_within_border b).pos.dist BORDER_CENTER + (keep_within_border b).radius ≤
      BORDER_RADIUS := by
  by_cases hpen : BORDER_RADIUS < b.pos.dist BORDER_CENTER + b.radius
  · have hL0 : 0 ≤ b.pos.dist BORDER_CENTER := ratSqrt_nonneg _
    have hLne : b.pos.dist BORDER_CENTER ≠ 0 := by
      intro h0
      rw [h0] at hpen
      linarith
    simp only [keep_within_border, gt_iff_lt, hpen, if_true]
    simp only [Vec3.dist, Vec3.length, Vec3.sub, Vec3.add, Vec3.dot, Vec3.normalize,
      Vec3.mulScalar, BORDER_CENTER] at hex hLne ⊢
    set L := ratSqrt ((b.pos.x - 0) * (b.pos.x - 0) + (b.pos.y - 0) * (b.pos.y - 0) +
      (b.pos.z - 0) * (b.pos.z - 0)) with hLdef
    have hkey : (0 + (b.pos.x - 0) * (1 / L) * (BORDER_RADIUS - b.radius) - 0) *
          (0 + (b.pos.x - 0) * (1 / L) * (BORDER_RADIUS - b.radius) - 0) +
        (0 + (b.pos.y - 0) * (1 / L) * (BORDER_RADIUS - b.radius) - 0) *
          (0 + (b.pos.y - 0) * (1 / L) * (BORDER_RADIUS - b.radius) - 0) +
        (0 + (b.pos.z - 0) * (1 / L) * (BORDER_RADIUS - b.radius) - 0) *
          (0 + (b.pos.z - 0) * (1 / L) * (BORDER_RADIUS - b.radius) - 0) =
        (BORDER_RADIUS - b.radius) * (BORDER_RADIUS - b.radius) := by
      have hexp : (0 + (b.pos.x - 0) * (1 / L) * (BORDER_RADIUS - b.radius) - 0) *
            (0 + (b.pos.x - 0) * (1 / L) * (BORDER_RADIUS - b.radius) - 0) +
          (0 + (b.pos.y - 0) * (1 / L) * (BORDER_RADIUS - b.radius) - 0) *
            (0 + (b.pos.y - 0) * (1 / L) * (BORDER_RADIUS - b.radius) - 0) +
          (0 + (b.pos.z - 0) * (1 / L) * (BORDER_RADIUS - b.radius) - 0) *
            (0 + (b.pos.z - 0) * (1 / L) * (BORDER_RADIUS - b.radius) - 0) =
          ((b.pos.x - 0) * (b.pos.x - 0) + (b.pos.y - 0) * (b.pos.y - 0) +
            (b.pos.z - 0) * (b.pos.z - 0)) *
            ((1 / L) * (BORDER_RADIUS - b.radius)) ^ 2 := by ring
      rw [hexp, ← hex]
      field_simp
      ring
    rw [hkey, ratSqrt_mul_self (BORDER_RADIUS - b.radius) (by linarith)]
    linarith
  · simp only [keep_within_border, gt_iff_lt]
    rw [if_neg hpen]
    linarith [not_lt.mp hpen]

/-- Witness for the amended C6 on a penetrating body. -/
theorem c6_border_phase_containment_witness :
    (c5OutBody.radius ≤ BORDER_RADIUS ∧
      ratSqrt ((c5OutBody.pos.sub BORDER_CENTER).dot (c5OutBody.pos.sub BORDER_CENTER)) *
          ratSqrt ((c5OutBody.pos.sub BORDER_CENTER).dot (c5OutBody.pos.sub BORDER_CENTER)) =
        (c5OutBody.pos.sub BORDER_CENTER).dot (c5OutBody.pos.sub BORDER_CENTER)) ∧
    (keep_within_border c5OutBody).pos.dist BORDER_CENTER +
        (keep_within_border c5OutBody).radius ≤ BORDER_RADIUS :=
  ⟨⟨by norm_num [c5OutBody, BORDER_RADIUS],
    by norm_num [c5OutBody, Vec3.sub, Vec3.dot, BORDER_CENTER, ratSqrt]⟩,
   c6_border_phase_containment c5OutBody (by norm_num [c5OutBody, BORDER_RADIUS])
     (by norm_num [c5OutBody, Vec3.sub, Vec3.dot, BORDER_CENTER, ratSqrt])⟩
